import Mathlib

/-!
Verification of the WorkTable `DataPager` (src/src/page/pager.rs) and of the
generated persistence code (src/codegen/src/persist_table/generator/space_serialize.rs),
as a sequential (quiescent) shallow embedding: each Rust method becomes a pure
function from pager state to result and new state.  Machine integers are
modelled as `Nat` (no arithmetic in the code can overflow on the inputs we
consider), rows are byte lists produced by an abstract serialization
capability, and a Rust panic (unchecked index) is modelled as `none`.
-/

namespace WorkTable

/-- PageLink: locator `(page_id, offset, length)` for one row payload
(src/src/page/link.rs is absent from the snapshot; the triple layout is fixed
by spec §3 and by every use in pager.rs). -/
structure PageLink where
  page_id : Nat
  offset : Nat
  length : Nat
deriving DecidableEq

/-- Errors arising inside a data page (enum `DataExecutionError` of
src/src/page/data.rs, reflected by the match arms of `DataPager::insert`). -/
inductive DataExecutionError where
  | InvalidLink
  | PageIsFull (free required : Nat)
  | SerializeError
  | DeserializeError
deriving DecidableEq

/-- Pager-level errors (enum `ExecutionError` of src/src/page/pager.rs). -/
inductive ExecutionError where
  | DataPageError (e : DataExecutionError)
  | PageNotFound (page_id : Nat)
  | Locked
deriving DecidableEq

/-- Modelled from the spec: `DataPage<INNER>` (src/page/data.rs is not in the
snapshot; §4.1 defines it).  `data` is the used prefix of the `INNER`-byte
buffer, so the write cursor `length` of the spec is `data.length` here. -/
structure DataPage where
  page_id : Nat
  data : List Nat
deriving DecidableEq

/-- Modelled from the spec: `DataPage::new(page_id)` allocates with cursor 0. -/
def DataPage.new (pid : Nat) : DataPage := ⟨pid, []⟩

/-- Overwrite `b` at byte offset `off` (helper for `save_row_by_link`). -/
def writeBytes (d : List Nat) (off : Nat) (b : List Nat) : List Nat :=
  d.take off ++ b ++ d.drop (off + b.length)

/-- Modelled from the spec: `DataPage::save_row` — append serialized bytes `b`;
fail `PageIsFull { free = INNER - length, required = |b| }` when
`length + |b| > INNER`; otherwise write at `offset = length`, advance the
cursor, and return `PageLink(page_id, offset, |b|)` (spec §4.1). -/
def DataPage.save_row (INNER : Nat) (p : DataPage) (b : List Nat) :
    Except DataExecutionError (PageLink × DataPage) :=
  if p.data.length + b.length > INNER then
    .error (.PageIsFull (INNER - p.data.length) b.length)
  else
    .ok (⟨p.page_id, p.data.length, b.length⟩, ⟨p.page_id, p.data ++ b⟩)

/-- Modelled from the spec: `DataPage::save_row_by_link` — require
`|b| = link.length`, `link.page_id = page_id` and
`link.offset + link.length ≤ length`, else `InvalidLink`; on success overwrite
in place, cursor unchanged (spec §4.1). -/
def DataPage.save_row_by_link (p : DataPage) (b : List Nat) (link : PageLink) :
    Except DataExecutionError DataPage :=
  if b.length = link.length ∧ link.page_id = p.page_id ∧
      link.offset + link.length ≤ p.data.length then
    .ok ⟨p.page_id, writeBytes p.data link.offset b⟩
  else
    .error .InvalidLink

/-- Modelled from the spec: the byte-slice part of `DataPage::get_row` —
bounds-check the link, return the slice `[offset, offset+length)`
(spec §4.1); deserialization happens above, in `select`. -/
def DataPage.get_row_bytes (p : DataPage) (link : PageLink) :
    Except DataExecutionError (List Nat) :=
  if link.offset + link.length ≤ p.data.length then
    .ok ((p.data.drop link.offset).take link.length)
  else
    .error .InvalidLink

/-- The abstract serialization capability over rows (spec §4.2/§6): a
deterministic encoding to bytes and a partial decoding. -/
structure SerCap (Row : Type) where
  encode : Row → List Nat
  decode : List Nat → Option Row

/-- The trivial capability on raw byte rows, used to evaluate the model on
concrete inputs. -/
def idCap : SerCap (List Nat) := ⟨id, some⟩

/-- State of a `DataPager` (src/src/page/pager.rs lines 17-33): page vector,
stack of recyclable links (top at the head), and the three counters. -/
structure PagerState where
  pages : List DataPage
  empty_links : List PageLink
  row_count : Nat
  last_page_id : Nat
  current_page : Nat
deriving DecidableEq

namespace DataPager

/-- `DataPager::new` (pager.rs lines 48-56): one page with id 0, counters 0. -/
def new : PagerState :=
  { pages := [DataPage.new 0], empty_links := [], row_count := 0,
    last_page_id := 0, current_page := 0 }

/-- `DataPager::retry_insert` (pager.rs lines 122-145): one `save_row` on the
current page; increment `row_count` on success, otherwise return the error.
`none` models the Rust panic of the unchecked index `pages[current_page]`. -/
def retry_insert {Row : Type} (INNER : Nat) (cap : SerCap Row)
    (s : PagerState) (row : Row) :
    Option (Except ExecutionError PageLink × PagerState) :=
  match s.pages[s.current_page]? with
  | none => none
  | some page =>
    match page.save_row INNER (cap.encode row) with
    | .error e => some (.error (.DataPageError e), s)
    | .ok (link, page2) =>
      some (.ok link,
        { s with pages := s.pages.set s.current_page page2,
                 row_count := s.row_count + 1 })

/-- `DataPager::add_next_page` (pager.rs lines 147-155): under the write lock,
re-check `tried_page == current_page`; if it holds, bump `last_page_id`, push
one page with that new id, and bump `current_page`. -/
def add_next_page (s : PagerState) (tried_page : Nat) : PagerState :=
  if tried_page = s.current_page then
    { s with last_page_id := s.last_page_id + 1,
             pages := s.pages ++ [DataPage.new (s.last_page_id + 1)],
             current_page := s.current_page + 1 }
  else s

/-- `DataPager::insert` (pager.rs lines 62-120).  Recycled branch: pop a link,
`save_row_by_link` on `pages[link.page_id]` (unchecked index: `none` models
the panic); on `InvalidLink` push the link back and fall through to
`retry_insert`; other page errors propagate; on success return the link with
`row_count` unchanged.  Fresh branch: `save_row` on `pages[current_page]`; on
success bump `row_count`; on `PageIsFull` call `add_next_page` if the tried
page is still current, then `retry_insert`; other errors propagate. -/
def insert {Row : Type} (INNER : Nat) (cap : SerCap Row)
    (s : PagerState) (row : Row) :
    Option (Except ExecutionError PageLink × PagerState) :=
  match s.empty_links with
  | link :: rest =>
    match s.pages[link.page_id]? with
    | none => none
    | some page =>
      match page.save_row_by_link (cap.encode row) link with
      | .error .InvalidLink =>
        retry_insert INNER cap { s with empty_links := link :: rest } row
      | .error e =>
        some (.error (.DataPageError e), { s with empty_links := rest })
      | .ok page2 =>
        some (.ok link,
          { s with empty_links := rest,
                   pages := s.pages.set link.page_id page2 })
  | [] =>
    let tried_page := s.current_page
    match s.pages[tried_page]? with
    | none => none
    | some page =>
      match page.save_row INNER (cap.encode row) with
      | .ok (link, page2) =>
        some (.ok link,
          { s with pages := s.pages.set tried_page page2,
                   row_count := s.row_count + 1 })
      | .error e =>
        match e with
        | .PageIsFull _ _ =>
          retry_insert INNER cap
            (if tried_page = s.current_page then add_next_page s tried_page
             else s) row
        | _ => some (.error (.DataPageError e), s)

/-- `DataPager::select` (pager.rs lines 161-179): checked page lookup
(`PageNotFound` on a missing page), then `get_row` and unwrap. -/
def select {Row : Type} (cap : SerCap Row) (s : PagerState) (link : PageLink) :
    Except ExecutionError Row :=
  match s.pages[link.page_id]? with
  | none => .error (.PageNotFound link.page_id)
  | some page =>
    match page.get_row_bytes link with
    | .error e => .error (.DataPageError e)
    | .ok bytes =>
      match cap.decode bytes with
      | none => .error (.DataPageError .DeserializeError)
      | some r => .ok r

/-- `DataPager::with_ref` (pager.rs lines 185-200): checked page lookup, then
run the closure on the borrowed slice. -/
def with_ref {Res : Type} (s : PagerState) (link : PageLink)
    (op : List Nat → Res) : Except ExecutionError Res :=
  match s.pages[link.page_id]? with
  | none => .error (.PageNotFound link.page_id)
  | some page =>
    match page.get_row_bytes link with
    | .error e => .error (.DataPageError e)
    | .ok bytes => .ok (op bytes)

/-- `DataPager::with_mut_ref` (pager.rs lines 206-226): checked page lookup,
run the closure on the slice and write its (same-length) output back. -/
def with_mut_ref {Res : Type} (s : PagerState) (link : PageLink)
    (op : List Nat → Res × List Nat) :
    Except ExecutionError Res × PagerState :=
  match s.pages[link.page_id]? with
  | none => (.error (.PageNotFound link.page_id), s)
  | some page =>
    match page.get_row_bytes link with
    | .error e => (.error (.DataPageError e), s)
    | .ok bytes =>
      let r := op bytes
      let page2 : DataPage := ⟨page.page_id, writeBytes page.data link.offset r.2⟩
      (.ok r.1, { s with pages := s.pages.set link.page_id page2 })

/-- `DataPager::update` (pager.rs lines 228-248): checked page lookup, then
`save_row_by_link`; the link is returned unchanged on success. -/
def update {Row : Type} (cap : SerCap Row) (s : PagerState) (row : Row)
    (link : PageLink) : Except ExecutionError PageLink × PagerState :=
  match s.pages[link.page_id]? with
  | none => (.error (.PageNotFound link.page_id), s)
  | some page =>
    match page.save_row_by_link (cap.encode row) link with
    | .error e => (.error (.DataPageError e), s)
    | .ok page2 =>
      (.ok link, { s with pages := s.pages.set link.page_id page2 })

/-- `DataPager::delete` (pager.rs lines 250-253): push the link onto
`empty_links` and return `Ok(())`. -/
def delete (s : PagerState) (link : PageLink) :
    Except ExecutionError Unit × PagerState :=
  (.ok (), { s with empty_links := link :: s.empty_links })

/-- The structural pager invariants of spec §4.2: indices and page ids
coincide, the vector length tracks `last_page_id`, and `current_page` never
passes `last_page_id`. -/
def Inv (s : PagerState) : Prop :=
  (∀ i < s.pages.length, (s.pages.getD i (DataPage.new 0)).page_id = i) ∧
  s.pages.length = s.last_page_id + 1 ∧
  s.current_page ≤ s.last_page_id

instance (s : PagerState) : Decidable (Inv s) := by
  unfold Inv; infer_instance

/-- A recycled link fits a fresh row of `n` encoded bytes: its page exists and
the slot geometry matches (spec §4.2 free-stack invariant plus the
fixed-serialized-length design assumption of §9). -/
def LinkFits (s : PagerState) (l : PageLink) (n : Nat) : Prop :=
  l.page_id < s.pages.length ∧ l.length = n ∧
  l.offset + l.length ≤ (s.pages.getD l.page_id (DataPage.new 0)).data.length

instance (s : PagerState) (l : PageLink) (n : Nat) : Decidable (LinkFits s l n) := by
  unfold LinkFits; infer_instance

end DataPager

/-! The generated persistence code
(src/codegen/src/persist_table/generator/space_serialize.rs).  The `quote!`
bodies of `gen_from_file_fn` and `gen_into_space` are the source; the runtime
helpers they call (`map_index_pages_to_general`, `map_data_pages_to_general`,
the secondary-indexes object) are absent from the snapshot and modelled from
spec §4.3/§4.4. -/

/-- Kinds of I/O failure a `File::open` call can report; the claims
distinguish a missing file from other failures such as an unreadable file. -/
inductive IoErrorKind where
  | notFound
  | permissionDenied
  | other
deriving DecidableEq

/-- `load_from_file` of the generated table (space_serialize.rs lines 69-81):
`let Ok(mut file) = File::open(filename) else { return Ok(Table::new(manager)) };`
then `parse_file(&mut file)?` and `into_worktable`.  The open outcome and the
parser are passed as values; note the let-else discards the open error
without inspecting its kind. -/
def load_from_file {F S T E : Type} (newTable : T)
    (parse_file : F → Except E S) (into_worktable : S → T)
    (openResult : Except IoErrorKind F) : Except E T :=
  match openResult with
  | .error _ => .ok newTable
  | .ok file =>
    match parse_file file with
    | .error e => .error e
    | .ok space => .ok (into_worktable space)

/-- Page type tag of a `GeneralHeader` (spec §3/§6). -/
inductive PageType where
  | SpaceInfo
  | PrimaryIndex
  | SecondaryIndex
  | Data
deriving DecidableEq

/-- Per-page header (spec §3; constructed by `gen_space_info_fn` and, as
modelled below, by the page-mapping helpers). -/
structure GeneralHeader where
  data_version : Nat
  page_id : Nat
  previous_id : Nat
  next_id : Nat
  page_type : PageType
  space_id : Nat
  data_length : Nat
deriving DecidableEq

/-- A typed page: header plus payload (spec §3). -/
structure GeneralPage (α : Type) where
  header : GeneralHeader
  inner : α
deriving DecidableEq

/-- Interval `(first_page_id, last_page_id)` of one section (spec §3). -/
structure Interval where
  first : Nat
  last : Nat
deriving DecidableEq

/-- The SpaceInfo payload, restricted to the fields `gen_into_space` touches
(space_serialize.rs lines 88-114; `secondary_index_map` stays default and is
omitted). -/
structure SpaceInfoData where
  id : Nat
  page_count : Nat
  name : String
  primary_key_intervals : List Interval
  secondary_index_intervals : List (String × Interval)
  data_intervals : List Interval
  pk_gen_state : Nat
  empty_links_list : List PageLink
deriving DecidableEq

/-- `space_info_default` (space_serialize.rs lines 88-114): zeroed header of
type SpaceInfo and an empty SpaceInfoData. -/
def space_info_default (name : String) : GeneralPage SpaceInfoData :=
  { header := { data_version := 1, page_id := 0, previous_id := 0, next_id := 0,
                page_type := .SpaceInfo, space_id := 0, data_length := 0 },
    inner := { id := 0, page_count := 0, name := name,
               primary_key_intervals := [], secondary_index_intervals := [],
               data_intervals := [], pk_gen_state := 0,
               empty_links_list := [] } }

/-- Modelled from the spec: `map_index_pages_to_general` /
`map_data_pages_to_general` (absent from the snapshot; spec §4.3) — wrap each
payload with a GeneralHeader, assigning consecutive page ids starting from
`prevId + 1` and threading `previous_id`/`next_id` (0 marks the end). -/
def mapPagesToGeneral {α : Type} (t : PageType) : Nat → List α → List (GeneralPage α)
  | _, [] => []
  | prevId, x :: rest =>
    { header := { data_version := 1, page_id := prevId + 1,
                  previous_id := prevId,
                  next_id := if rest.isEmpty then 0 else prevId + 2,
                  page_type := t, space_id := 0, data_length := 0 },
      inner := x } :: mapPagesToGeneral t (prevId + 1) rest

/-- Modelled from the spec: the secondary-indexes object's
`get_persisted_index` (spec §4.4(c)) — each named index's pages are mapped in
declaration order, page ids continuing where the previous index stopped. -/
def mapSecondary {β : Type} : Nat → List (String × List β) →
    List (String × List (GeneralPage β))
  | _, [] => []
  | prevId, (nm, xs) :: rest =>
    (nm, mapPagesToGeneral .SecondaryIndex prevId xs) ::
      mapSecondary (prevId + xs.length) rest

/-- Modelled from the spec: the secondary-indexes object's `get_intervals` —
one `(name, Interval(first_page_id, last_page_id))` per index that has
pages. -/
def secIntervals {β : Type} (xs : List (String × List (GeneralPage β))) :
    List (String × Interval) :=
  xs.filterMap (fun p =>
    match p.2.head?, p.2.getLast? with
    | some a, some b => some (p.1, ⟨a.header.page_id, b.header.page_id⟩)
    | _, _ => none)

/-- Modelled from the spec: the secondary-indexes object's
`get_last_header_mut`, reduced to the page id it exposes — the id of the last
secondary page, if any. -/
def lastSecondaryId {β : Type} (xs : List (String × List (GeneralPage β))) :
    Option Nat :=
  ((xs.map Prod.snd).flatten.getLast?).map (fun g => g.header.page_id)

/-- The assembled Space (space_serialize.rs lines 15-26), with the path field
dropped and the secondary indexes kept per name. -/
structure Space (κ β : Type) where
  info : GeneralPage SpaceInfoData
  primary_index : List (GeneralPage κ)
  indexes : List (String × List (GeneralPage β))
  data : List (GeneralPage (List Nat × Nat))
deriving DecidableEq

/-- `into_space` (space_serialize.rs lines 136-203): set `pk_gen_state`,
`empty_links_list` and `page_count = 1` on a default SpaceInfo; map the
primary-index pages after the info header and record their Interval, adding
`primary_index.len()` to `page_count`; map the secondary indexes after the
last primary page and record their intervals; map the data pages after the
last secondary page (or the last primary page when there is none) and record
their Interval.  No `page_count` update happens for the secondary-index or
data sections.  `none` models the `.expect` panics on an empty primary index
or empty data vector. -/
def into_space {κ β : Type} (name : String) (pkGenState : Nat)
    (emptyLinks : List PageLink) (pkPages : List κ)
    (secIdx : List (String × List β)) (dataPages : List (List Nat × Nat)) :
    Option (Space κ β) :=
  let info0 := space_info_default name
  let inner1 : SpaceInfoData :=
    { info0.inner with pk_gen_state := pkGenState, empty_links_list := emptyLinks, page_count := 1 }
  let info1 : GeneralPage SpaceInfoData := { info0 with inner := inner1 }
  let primary := mapPagesToGeneral .PrimaryIndex info1.header.page_id pkPages
  match primary.head?, primary.getLast? with
  | some fstP, some lstP =>
    let interval : Interval := ⟨fstP.header.page_id, lstP.header.page_id⟩
    let inner2 : SpaceInfoData :=
      { info1.inner with page_count := info1.inner.page_count + primary.length, primary_key_intervals := [interval] }
    let info2 : GeneralPage SpaceInfoData := { info1 with inner := inner2 }
    let indexes := mapSecondary lstP.header.page_id secIdx
    let inner3 : SpaceInfoData :=
      { info2.inner with secondary_index_intervals := secIntervals indexes }
    let info3 : GeneralPage SpaceInfoData := { info2 with inner := inner3 }
    let dataPrev := (lastSecondaryId indexes).getD lstP.header.page_id
    let data := mapPagesToGeneral .Data dataPrev dataPages
    match data.head?, data.getLast? with
    | some fstD, some lstD =>
      let inner4 : SpaceInfoData :=
        { info3.inner with data_intervals := [⟨fstD.header.page_id, lstD.header.page_id⟩] }
      some { info := { info3 with inner := inner4 }, primary_index := primary, indexes := indexes, data := data }
    | _, _ => none
  | _, _ => none

/-- A concrete assembled space: one primary-index page, one secondary-index
page for index "i", one data page (the output of `into_space` on the matching
inputs, used to evaluate the theorems about `into_space`). -/
def spC4 : Space Unit Unit :=
  { info := { header := ⟨1, 0, 0, 0, .SpaceInfo, 0, 0⟩,
              inner := ⟨0, 2, "t", [⟨1, 1⟩], [("i", ⟨2, 2⟩)], [⟨3, 3⟩], 0, []⟩ },
    primary_index := [⟨⟨1, 1, 0, 0, .PrimaryIndex, 0, 0⟩, ()⟩],
    indexes := [("i", [⟨⟨1, 2, 1, 0, .SecondaryIndex, 0, 0⟩, ()⟩])],
    data := [⟨⟨1, 3, 2, 0, .Data, 0, 0⟩, ([9], 1)⟩] }

instance {ε α : Type} [DecidableEq ε] [DecidableEq α] : DecidableEq (Except ε α) :=
  fun a b =>
    match a, b with
    | .ok x, .ok y => if h : x = y then .isTrue (by rw [h]) else .isFalse (by simp [h])
    | .error x, .error y => if h : x = y then .isTrue (by rw [h]) else .isFalse (by simp [h])
    | .ok _, .error _ => .isFalse (by simp)
    | .error _, .ok _ => .isFalse (by simp)

theorem writeBytes_length {d b : List Nat} {off : Nat}
    (h : off + b.length ≤ d.length) :
    (writeBytes d off b).length = d.length := by
  simp only [writeBytes, List.length_append, List.length_take, List.length_drop]
  omega

theorem writeBytes_slice {d b : List Nat} {off : Nat}
    (h : off + b.length ≤ d.length) :
    ((writeBytes d off b).drop off).take b.length = b := by
  have hoff : (d.take off).length = off := by
    simp only [List.length_take]; omega
  unfold writeBytes
  rw [List.append_assoc, List.drop_left' hoff, List.take_left]

theorem append_slice (d b : List Nat) :
    ((d ++ b).drop d.length).take b.length = b := by
  rw [List.drop_left, List.take_length]

namespace DataPager

theorem retry_insert_ne_none {Row : Type} (INNER : Nat) (cap : SerCap Row)
    (s : PagerState) (row : Row) (h : s.current_page < s.pages.length) :
    retry_insert INNER cap s row ≠ none := by
  unfold retry_insert
  rw [List.getElem?_eq_getElem h]
  split
  · simp_all
  · split <;> simp

theorem Inv_page_id {s : PagerState} (h : Inv s) {i : Nat} {pg : DataPage}
    (hpg : s.pages[i]? = some pg) : pg.page_id = i := by
  obtain ⟨h1, -, -⟩ := h
  have hi : i < s.pages.length := (List.getElem?_eq_some.mp hpg).1
  have h2 := h1 i hi
  rw [List.getD_eq_getElem?_getD, hpg] at h2
  simpa using h2

theorem Inv_of {s : PagerState}
    (h1 : ∀ i (pg : DataPage), s.pages[i]? = some pg → pg.page_id = i)
    (h2 : s.pages.length = s.last_page_id + 1)
    (h3 : s.current_page ≤ s.last_page_id) : Inv s := by
  refine ⟨?_, h2, h3⟩
  intro i hi
  rw [List.getD_eq_getElem?_getD, List.getElem?_eq_getElem hi]
  exact h1 i _ (List.getElem?_eq_getElem hi)

theorem retry_insert_spec {Row : Type} (INNER : Nat) (cap : SerCap Row)
    (s : PagerState) (row : Row) :
    (s.pages[s.current_page]? = none ∧ retry_insert INNER cap s row = none) ∨
    (∃ pg e, s.pages[s.current_page]? = some pg ∧
      pg.save_row INNER (cap.encode row) = .error e ∧
      retry_insert INNER cap s row = some (.error (.DataPageError e), s)) ∨
    (∃ pg link page2, s.pages[s.current_page]? = some pg ∧
      pg.save_row INNER (cap.encode row) = .ok (link, page2) ∧
      retry_insert INNER cap s row =
        some (.ok link, { s with pages := s.pages.set s.current_page page2,
                                 row_count := s.row_count + 1 })) := by
  unfold retry_insert
  rcases hpg : s.pages[s.current_page]? with _ | pg
  · exact Or.inl ⟨rfl, rfl⟩
  · rcases hsr : pg.save_row INNER (cap.encode row) with e | ⟨link, page2⟩
    · exact Or.inr (Or.inl ⟨pg, e, rfl, hsr, by simp [hsr]⟩)
    · exact Or.inr (Or.inr ⟨pg, link, page2, rfl, hsr, by simp [hsr]⟩)

theorem insert_cons_eq {Row : Type} (INNER : Nat) (cap : SerCap Row)
    {s : PagerState} {link : PageLink} {rest : List PageLink} {pg : DataPage}
    (row : Row) (heq : s.empty_links = link :: rest)
    (hpg : s.pages[link.page_id]? = some pg) :
    insert INNER cap s row =
      (match pg.save_row_by_link (cap.encode row) link with
       | .error .InvalidLink => retry_insert INNER cap s row
       | .error e => some (.error (.DataPageError e), { s with empty_links := rest })
       | .ok page2 =>
         some (.ok link, { s with empty_links := rest,
                                  pages := s.pages.set link.page_id page2 })) := by
  obtain ⟨pages, el, rc, last, cur⟩ := s
  simp only at heq
  subst heq
  simp only [insert]
  rw [hpg]

theorem insert_cons_none {Row : Type} (INNER : Nat) (cap : SerCap Row)
    {s : PagerState} {link : PageLink} {rest : List PageLink} (row : Row)
    (heq : s.empty_links = link :: rest)
    (hpg : s.pages[link.page_id]? = none) :
    insert INNER cap s row = none := by
  obtain ⟨pages, el, rc, last, cur⟩ := s
  simp only at heq
  subst heq
  simp only [insert]
  rw [hpg]

theorem insert_nil_eq {Row : Type} (INNER : Nat) (cap : SerCap Row)
    {s : PagerState} {pg : DataPage} (row : Row) (heq : s.empty_links = [])
    (hpg : s.pages[s.current_page]? = some pg) :
    insert INNER cap s row =
      (match pg.save_row INNER (cap.encode row) with
       | .ok (link, page2) =>
         some (.ok link, { s with pages := s.pages.set s.current_page page2,
                                  row_count := s.row_count + 1 })
       | .error (.PageIsFull _ _) =>
         retry_insert INNER cap (add_next_page s s.current_page) row
       | .error e => some (.error (.DataPageError e), s)) := by
  obtain ⟨pages, el, rc, last, cur⟩ := s
  simp only at heq
  subst heq
  simp only [insert]
  rw [hpg]
  rcases hsr : pg.save_row INNER (cap.encode row) with e | ⟨link, page2⟩
  · rcases e <;> simp [hsr]
  · simp [hsr]

theorem insert_nil_none {Row : Type} (INNER : Nat) (cap : SerCap Row)
    {s : PagerState} (row : Row) (heq : s.empty_links = [])
    (hpg : s.pages[s.current_page]? = none) :
    insert INNER cap s row = none := by
  obtain ⟨pages, el, rc, last, cur⟩ := s
  simp only at heq
  subst heq
  simp only [insert]
  rw [hpg]

theorem add_next_page_eq_pos {s : PagerState} {t : Nat} (h : t = s.current_page) :
    add_next_page s t =
      { s with last_page_id := s.last_page_id + 1,
               pages := s.pages ++ [DataPage.new (s.last_page_id + 1)],
               current_page := s.current_page + 1 } := by
  unfold add_next_page
  rw [if_pos h]

theorem add_next_page_eq_neg {s : PagerState} {t : Nat} (h : t ≠ s.current_page) :
    add_next_page s t = s := by
  unfold add_next_page
  rw [if_neg h]

theorem save_row_ok {INNER : Nat} {pg : DataPage} {b : List Nat}
    {link : PageLink} {page2 : DataPage}
    (h : pg.save_row INNER b = .ok (link, page2)) :
    link = ⟨pg.page_id, pg.data.length, b.length⟩ ∧
    page2 = ⟨pg.page_id, pg.data ++ b⟩ ∧
    pg.data.length + b.length ≤ INNER := by
  unfold DataPage.save_row at h
  split at h
  · exact absurd h (by simp)
  · simp only [Except.ok.injEq, Prod.mk.injEq] at h
    exact ⟨h.1.symm, h.2.symm, by omega⟩

theorem save_row_by_link_ok {pg : DataPage} {b : List Nat} {link : PageLink}
    {page2 : DataPage} (h : pg.save_row_by_link b link = .ok page2) :
    b.length = link.length ∧ link.page_id = pg.page_id ∧
    link.offset + link.length ≤ pg.data.length ∧
    page2 = ⟨pg.page_id, writeBytes pg.data link.offset b⟩ := by
  unfold DataPage.save_row_by_link at h
  split at h
  · rename_i hc
    simp only [Except.ok.injEq] at h
    exact ⟨hc.1, hc.2.1, hc.2.2, h.symm⟩
  · exact absurd h (by simp)

theorem Inv_congr {s s2 : PagerState} (h1 : s2.pages = s.pages)
    (h2 : s2.last_page_id = s.last_page_id)
    (h3 : s2.current_page = s.current_page) (h : Inv s) : Inv s2 := by
  unfold Inv at h ⊢
  rw [h1, h2, h3]
  exact h

theorem Inv_of_set {s s2 : PagerState} {i : Nat} {pg page2 : DataPage}
    (hInv : Inv s) (hpg : s.pages[i]? = some pg)
    (hid : page2.page_id = pg.page_id)
    (h1 : s2.pages = s.pages.set i page2)
    (h2 : s2.last_page_id = s.last_page_id)
    (h3 : s2.current_page = s.current_page) : Inv s2 := by
  apply Inv_of
  · intro j q hq
    rw [h1] at hq
    by_cases hji : j = i
    · subst hji
      have hj : j < s.pages.length := (List.getElem?_eq_some.mp hpg).1
      rw [List.getElem?_set_self hj] at hq
      have hq2 : q = page2 := (Option.some.inj hq).symm
      rw [hq2, hid]
      exact Inv_page_id hInv hpg
    · rw [List.getElem?_set_ne (fun hij => hji hij.symm)] at hq
      exact Inv_page_id hInv hq
  · rw [h1, List.length_set, h2]
    exact hInv.2.1
  · rw [h2, h3]
    exact hInv.2.2

theorem Inv_add_next_page {s : PagerState} (t : Nat) (hInv : Inv s) :
    Inv (add_next_page s t) ∧
    s.last_page_id ≤ (add_next_page s t).last_page_id ∧
    (add_next_page s t).empty_links = s.empty_links := by
  by_cases h : t = s.current_page
  · rw [add_next_page_eq_pos h]
    refine ⟨Inv_of ?_ ?_ ?_, by simp, rfl⟩
    · intro j q hq
      simp only at hq
      rcases Nat.lt_or_ge j s.pages.length with hj | hj
      · rw [List.getElem?_append_left hj] at hq
        exact Inv_page_id hInv hq
      · have hlen : j < s.pages.length + 1 := by
          have hb := (List.getElem?_eq_some.mp hq).1
          simpa using hb
        have hj2 : j = s.pages.length := by omega
        subst hj2
        rw [List.getElem?_concat_length] at hq
        have hq2 : q = DataPage.new (s.last_page_id + 1) := (Option.some.inj hq).symm
        rw [hq2]
        have hL := hInv.2.1
        simp only [DataPage.new]
        omega
    · have hL := hInv.2.1
      simp only [List.length_append, List.length_cons, List.length_nil]
      omega
    · exact Nat.succ_le_succ hInv.2.2
  · rw [add_next_page_eq_neg h]
    exact ⟨hInv, Nat.le_refl _, rfl⟩

theorem Inv_retry_insert {Row : Type} {INNER : Nat} {cap : SerCap Row}
    {s : PagerState} {row : Row} {r : Except ExecutionError PageLink}
    {s2 : PagerState} (hInv : Inv s)
    (h : retry_insert INNER cap s row = some (r, s2)) :
    Inv s2 ∧ s2.last_page_id = s.last_page_id ∧
    s2.empty_links = s.empty_links := by
  rcases retry_insert_spec INNER cap s row with
    ⟨h1, h2⟩ | ⟨pg, e, h1, h2, h3⟩ | ⟨pg, lk, p2, h1, h2, h3⟩
  · rw [h2] at h; exact absurd h (by simp)
  · rw [h3] at h
    simp only [Option.some_inj, Prod.mk.injEq] at h
    rw [← h.2]
    exact ⟨hInv, rfl, rfl⟩
  · rw [h3] at h
    simp only [Option.some_inj, Prod.mk.injEq] at h
    rw [← h.2]
    obtain ⟨-, hp2, -⟩ := save_row_ok h2
    refine ⟨Inv_of_set hInv h1 ?_ rfl rfl rfl, rfl, rfl⟩
    rw [hp2]

theorem add_next_page_row_count (s : PagerState) (t : Nat) :
    (add_next_page s t).row_count = s.row_count ∧
    (add_next_page s t).empty_links = s.empty_links := by
  unfold add_next_page
  split <;> exact ⟨rfl, rfl⟩

end DataPager

/-- C8: for every link — even one whose `page_id` refers to no existing page —
`delete` returns `Ok(())`, pushes the link onto `empty_links`, and leaves the
pages vector, `row_count`, `last_page_id` and `current_page` unchanged. -/
theorem DataPager.delete_frame (s : PagerState) (link : PageLink) :
    (DataPager.delete s link).1 = .ok () ∧
    (DataPager.delete s link).2.empty_links = link :: s.empty_links ∧
    (DataPager.delete s link).2.pages = s.pages ∧
    (DataPager.delete s link).2.row_count = s.row_count ∧
    (DataPager.delete s link).2.last_page_id = s.last_page_id ∧
    (DataPager.delete s link).2.current_page = s.current_page :=
  ⟨rfl, rfl, rfl, rfl, rfl, rfl⟩

theorem DataPager.select_of_set {Row : Type} (cap : SerCap Row)
    {ps : List DataPage} {s2 : PagerState} {j : Nat} {page2 : DataPage}
    {link : PageLink} {row : Row}
    (hpages : s2.pages = ps.set j page2)
    (hj : j < ps.length)
    (hlpid : link.page_id = j)
    (hbound : link.offset + link.length ≤ page2.data.length)
    (hslice : (page2.data.drop link.offset).take link.length = cap.encode row)
    (hdec : cap.decode (cap.encode row) = some row) :
    DataPager.select cap s2 link = .ok row := by
  unfold DataPager.select
  rw [hpages, hlpid, List.getElem?_set_self hj]
  unfold DataPage.get_row_bytes
  simp [hbound, hslice, hdec]

/-- C1: round-trip.  On a pager satisfying the structural invariants (with
`current_page = last_page_id`, as in every reachable state), for a row whose
encoding fits a page, decodes back to itself, and is compatible with every
link on the free stack (the fixed-serialized-length design assumption of
spec §9), `insert` succeeds and `select` on the returned link — with no
intervening mutation — returns a row equal to the inserted one. -/
theorem DataPager.insert_select_roundtrip (Row : Type) (INNER : Nat)
    (cap : SerCap Row) (s : PagerState) (row : Row)
    (hInv : DataPager.Inv s)
    (hcl : s.current_page = s.last_page_id)
    (hfit : (cap.encode row).length ≤ INNER)
    (hdec : cap.decode (cap.encode row) = some row)
    (hlinks : ∀ l ∈ s.empty_links,
      DataPager.LinkFits s l (cap.encode row).length) :
    ∃ l s2, DataPager.insert INNER cap s row = some (.ok l, s2) ∧
      DataPager.select cap s2 l = .ok row := by
  rcases heq : s.empty_links with _ | ⟨lk, rest⟩
  · have hcur : s.current_page < s.pages.length := by
      have h1 := hInv.2.1; have h2 := hInv.2.2; omega
    have hpg : s.pages[s.current_page]? = some s.pages[s.current_page] :=
      List.getElem?_eq_getElem hcur
    have hpid : s.pages[s.current_page].page_id = s.current_page :=
      DataPager.Inv_page_id hInv hpg
    rw [DataPager.insert_nil_eq INNER cap row heq hpg]
    by_cases hfull :
        s.pages[s.current_page].data.length + (cap.encode row).length > INNER
    · have hsr : s.pages[s.current_page].save_row INNER (cap.encode row) =
          .error (.PageIsFull (INNER - s.pages[s.current_page].data.length)
            (cap.encode row).length) := by
        unfold DataPage.save_row
        rw [if_pos hfull]
      rw [hsr]
      simp only
      rw [DataPager.add_next_page_eq_pos rfl]
      unfold DataPager.retry_insert
      have hidx :
          (s.pages ++ [DataPage.new (s.last_page_id + 1)])[s.current_page + 1]? =
            some (DataPage.new (s.last_page_id + 1)) := by
        have hlen : s.current_page + 1 = s.pages.length := by
          have h1 := hInv.2.1; omega
        rw [hlen]
        exact List.getElem?_concat_length _ _
      simp only
      rw [hidx]
      have hsr2 : (DataPage.new (s.last_page_id + 1)).save_row INNER
          (cap.encode row) =
          .ok (⟨s.last_page_id + 1, 0, (cap.encode row).length⟩,
               ⟨s.last_page_id + 1, cap.encode row⟩) := by
        unfold DataPage.save_row DataPage.new
        rw [if_neg (by simp; omega)]
        simp
      simp only [hsr2]
      refine ⟨⟨s.last_page_id + 1, 0, (cap.encode row).length⟩, _, rfl, ?_⟩
      refine DataPager.select_of_set cap rfl ?_ ?_ ?_ ?_ hdec
      · simp
        omega
      · simp only
        omega
      · simp
      · simp
    · have hsr : s.pages[s.current_page].save_row INNER (cap.encode row) =
          .ok (⟨s.pages[s.current_page].page_id,
                s.pages[s.current_page].data.length, (cap.encode row).length⟩,
               ⟨s.pages[s.current_page].page_id,
                s.pages[s.current_page].data ++ cap.encode row⟩) := by
        unfold DataPage.save_row
        rw [if_neg hfull]
      rw [hsr]
      refine ⟨_, _, rfl, ?_⟩
      refine DataPager.select_of_set cap rfl hcur ?_ ?_ ?_ hdec
      · exact hpid
      · simp
      · exact append_slice _ _
  · have hfits := hlinks lk (by rw [heq]; exact List.mem_cons_self _ _)
    obtain ⟨hlt, hlen, hoff⟩ := hfits
    have hpg : s.pages[lk.page_id]? = some s.pages[lk.page_id] :=
      List.getElem?_eq_getElem hlt
    have hpid : s.pages[lk.page_id].page_id = lk.page_id :=
      DataPager.Inv_page_id hInv hpg
    have hoff2 : lk.offset + lk.length ≤ s.pages[lk.page_id].data.length := by
      rw [List.getD_eq_getElem?_getD, hpg] at hoff
      simpa using hoff
    have hsl : s.pages[lk.page_id].save_row_by_link (cap.encode row) lk =
        .ok ⟨s.pages[lk.page_id].page_id,
             writeBytes s.pages[lk.page_id].data lk.offset (cap.encode row)⟩ := by
      unfold DataPage.save_row_by_link
      rw [if_pos ⟨hlen.symm, hpid.symm, hoff2⟩]
    rw [DataPager.insert_cons_eq INNER cap row heq hpg, hsl]
    refine ⟨lk, _, rfl, ?_⟩
    refine DataPager.select_of_set cap rfl hlt rfl ?_ ?_ hdec
    · simp only
      rw [writeBytes_length (by omega)]
      exact hoff2
    · simp only
      rw [hlen]
      exact writeBytes_slice (by omega)

/-- Witness for C1: insert of the 2-byte row `[1, 2]` into the fresh pager
(INNER = 24) succeeds and selecting the returned link yields `[1, 2]`. -/
theorem DataPager.insert_select_roundtrip_witness :
    ∃ l s2, DataPager.insert 24 idCap DataPager.new [1, 2] =
        some (.ok l, s2) ∧
      DataPager.select idCap s2 l = .ok [1, 2] :=
  DataPager.insert_select_roundtrip (List Nat) 24 idCap DataPager.new [1, 2]
    (by decide) rfl (by decide) rfl (by decide)

/-- C7: the invariants hold for `DataPager::new` and are preserved by every
state-changing pager operation: `pages[i].page_id = i`,
`pages.len() = last_page_id + 1`, `current_page ≤ last_page_id`, and
`last_page_id` never decreases (`insert` may grow it by one page;
`update`, `with_mut_ref` and `delete` leave it unchanged). -/
theorem DataPager.invariants_preserved :
    DataPager.Inv DataPager.new ∧
    (∀ (Row : Type) (INNER : Nat) (cap : SerCap Row) (s : PagerState)
       (row : Row) (r : Except ExecutionError PageLink) (s2 : PagerState),
       DataPager.Inv s → DataPager.insert INNER cap s row = some (r, s2) →
       DataPager.Inv s2 ∧ s.last_page_id ≤ s2.last_page_id) ∧
    (∀ (Row : Type) (cap : SerCap Row) (s : PagerState) (row : Row)
       (link : PageLink), DataPager.Inv s →
       DataPager.Inv (DataPager.update cap s row link).2 ∧
       (DataPager.update cap s row link).2.last_page_id = s.last_page_id) ∧
    (∀ (Res : Type) (s : PagerState) (link : PageLink)
       (op : List Nat → Res × List Nat), DataPager.Inv s →
       DataPager.Inv (DataPager.with_mut_ref s link op).2 ∧
       (DataPager.with_mut_ref s link op).2.last_page_id = s.last_page_id) ∧
    (∀ (s : PagerState) (link : PageLink), DataPager.Inv s →
       DataPager.Inv (DataPager.delete s link).2 ∧
       (DataPager.delete s link).2.last_page_id = s.last_page_id) := by
  refine ⟨by decide, ?_, ?_, ?_, ?_⟩
  · intro Row INNER cap s row r s2 hInv hins
    rcases heq : s.empty_links with _ | ⟨lk, rest⟩
    · rcases hpg : s.pages[s.current_page]? with _ | pg
      · rw [DataPager.insert_nil_none INNER cap row heq hpg] at hins
        exact absurd hins (by simp)
      · rw [DataPager.insert_nil_eq INNER cap row heq hpg] at hins
        rcases hsr : pg.save_row INNER (cap.encode row) with e | ⟨lk2, page2⟩
        · rcases e with _ | ⟨f, rq⟩ | _ | _ <;> rw [hsr] at hins <;>
            simp only [Option.some_inj, Prod.mk.injEq] at hins
          · rw [← hins.2]; exact ⟨hInv, Nat.le_refl _⟩
          · obtain ⟨hInv2, hle, -⟩ :=
              DataPager.Inv_add_next_page s.current_page hInv
            obtain ⟨hInv3, hlast, -⟩ := DataPager.Inv_retry_insert hInv2 hins
            exact ⟨hInv3, by omega⟩
          · rw [← hins.2]; exact ⟨hInv, Nat.le_refl _⟩
          · rw [← hins.2]; exact ⟨hInv, Nat.le_refl _⟩
        · rw [hsr] at hins
          simp only [Option.some_inj, Prod.mk.injEq] at hins
          obtain ⟨-, hp2, -⟩ := DataPager.save_row_ok hsr
          have hid : page2.page_id = pg.page_id := by rw [hp2]
          rw [← hins.2]
          exact ⟨DataPager.Inv_of_set hInv hpg hid rfl rfl rfl, Nat.le_refl _⟩
    · rcases hpg : s.pages[lk.page_id]? with _ | pg
      · rw [DataPager.insert_cons_none INNER cap row heq hpg] at hins
        exact absurd hins (by simp)
      · rw [DataPager.insert_cons_eq INNER cap row heq hpg] at hins
        rcases hsl : pg.save_row_by_link (cap.encode row) lk with e | page2
        · rcases e with _ | ⟨f, rq⟩ | _ | _ <;> rw [hsl] at hins <;>
            simp only [Option.some_inj, Prod.mk.injEq] at hins
          · obtain ⟨hInv3, hlast, -⟩ := DataPager.Inv_retry_insert hInv hins
            exact ⟨hInv3, Nat.le_of_eq hlast.symm⟩
          · rw [← hins.2]
            exact ⟨DataPager.Inv_congr rfl rfl rfl hInv, Nat.le_refl _⟩
          · rw [← hins.2]
            exact ⟨DataPager.Inv_congr rfl rfl rfl hInv, Nat.le_refl _⟩
          · rw [← hins.2]
            exact ⟨DataPager.Inv_congr rfl rfl rfl hInv, Nat.le_refl _⟩
        · rw [hsl] at hins
          simp only [Option.some_inj, Prod.mk.injEq] at hins
          obtain ⟨-, -, -, hp2⟩ := DataPager.save_row_by_link_ok hsl
          have hid : page2.page_id = pg.page_id := by rw [hp2]
          rw [← hins.2]
          exact ⟨DataPager.Inv_of_set hInv hpg hid rfl rfl rfl, Nat.le_refl _⟩
  · intro Row cap s row link hInv
    unfold DataPager.update
    rcases hpg : s.pages[link.page_id]? with _ | pg
    · exact ⟨hInv, by trivial⟩
    · rcases hsl : pg.save_row_by_link (cap.encode row) link with e | page2
      · simp only [hsl]
        exact ⟨hInv, by trivial⟩
      · simp only [hsl]
        have hid : page2.page_id = pg.page_id := by
          rw [(DataPager.save_row_by_link_ok hsl).2.2.2]
        exact ⟨DataPager.Inv_of_set hInv hpg hid rfl rfl rfl, by trivial⟩
  · intro Res s link op hInv
    unfold DataPager.with_mut_ref
    rcases hpg : s.pages[link.page_id]? with _ | pg
    · exact ⟨hInv, by trivial⟩
    · rcases hgb : pg.get_row_bytes link with e | bytes
      · simp only [hgb]
        exact ⟨hInv, by trivial⟩
      · simp only [hgb]
        have hid : (⟨pg.page_id,
            writeBytes pg.data link.offset (op bytes).2⟩ : DataPage).page_id =
            pg.page_id := rfl
        exact ⟨DataPager.Inv_of_set hInv hpg hid rfl rfl rfl, by trivial⟩
  · intro s link hInv
    exact ⟨DataPager.Inv_congr rfl rfl rfl hInv, rfl⟩

/-- Witness for C7: after one concrete fresh insert on the new pager the
invariants still hold and `last_page_id` has not decreased. -/
theorem DataPager.invariants_preserved_witness :
    DataPager.Inv (⟨[⟨0, [1, 2]⟩], [], 1, 0, 0⟩ : PagerState) ∧
    DataPager.new.last_page_id ≤
      (⟨[⟨0, [1, 2]⟩], [], 1, 0, 0⟩ : PagerState).last_page_id :=
  DataPager.invariants_preserved.2.1 (List Nat) 24 idCap DataPager.new
    [1, 2] (.ok ⟨0, 0, 2⟩) ⟨[⟨0, [1, 2]⟩], [], 1, 0, 0⟩ (by decide) (by decide)

/-- C2 counterexample: one fresh insert (row_count 1) followed by one delete
leaves `row_count = 1`, not `1 - 1 = 0`: `delete` does not decrement the
counter that fresh inserts increment. -/
theorem DataPager.row_count_after_delete_cex :
    DataPager.insert 24 idCap DataPager.new [1, 2] =
      some (.ok ⟨0, 0, 2⟩, ⟨[⟨0, [1, 2]⟩], [], 1, 0, 0⟩) ∧
    (DataPager.delete (⟨[⟨0, [1, 2]⟩], [], 1, 0, 0⟩ : PagerState) ⟨0, 0, 2⟩).2.row_count = 1 ∧
    (DataPager.delete (⟨[⟨0, [1, 2]⟩], [], 1, 0, 0⟩ : PagerState) ⟨0, 0, 2⟩).2.row_count ≠ 1 - 1 :=
  ⟨by decide, rfl, by decide⟩

/-- C2 amended: `row_count` counts successful fresh inserts only.  `delete`
leaves it unchanged; a successful insert from an empty free stack increments
it by exactly one; a successful insert that popped a recycled link either
reused that link (stack shrinks, count unchanged) or fell back to a fresh
retry after `InvalidLink` (stack restored, count incremented by one). -/
theorem DataPager.row_count_fresh_inserts_only :
    (∀ (s : PagerState) (link : PageLink),
        (DataPager.delete s link).2.row_count = s.row_count) ∧
    (∀ (Row : Type) (INNER : Nat) (cap : SerCap Row) (s : PagerState)
        (row : Row) (l : PageLink) (s2 : PagerState),
        s.empty_links = [] →
        DataPager.insert INNER cap s row = some (.ok l, s2) →
        s2.row_count = s.row_count + 1) ∧
    (∀ (Row : Type) (INNER : Nat) (cap : SerCap Row) (s : PagerState)
        (row : Row) (l : PageLink) (s2 : PagerState) (lk : PageLink)
        (rest : List PageLink),
        s.empty_links = lk :: rest →
        DataPager.insert INNER cap s row = some (.ok l, s2) →
        (s2.empty_links = rest ∧ s2.row_count = s.row_count) ∨
        (s2.empty_links = s.empty_links ∧ s2.row_count = s.row_count + 1)) := by
  refine ⟨fun s link => rfl, ?_, ?_⟩
  · intro Row INNER cap s row l s2 heq hins
    rcases hpg : s.pages[s.current_page]? with _ | pg
    · rw [DataPager.insert_nil_none INNER cap row heq hpg] at hins
      exact absurd hins (by simp)
    · rw [DataPager.insert_nil_eq INNER cap row heq hpg] at hins
      rcases hsr : pg.save_row INNER (cap.encode row) with e | ⟨lk2, page2⟩
      · rcases e with _ | ⟨f, r⟩ | _ | _ <;> rw [hsr] at hins <;> simp at hins
        rcases DataPager.retry_insert_spec INNER cap
            (DataPager.add_next_page s s.current_page) row with
          ⟨h1, h2⟩ | ⟨pg2, e2, h1, h2, h3⟩ | ⟨pg2, lk3, p3, h1, h2, h3⟩
        · rw [h2] at hins; exact absurd hins (by simp)
        · rw [h3] at hins; simp at hins
        · rw [h3] at hins
          simp only [Option.some_inj, Prod.mk.injEq] at hins
          obtain ⟨-, hs2⟩ := hins
          rw [← hs2]
          simp [(DataPager.add_next_page_row_count s s.current_page).1]
      · rw [hsr] at hins
        simp only [Option.some_inj, Prod.mk.injEq] at hins
        obtain ⟨-, hs2⟩ := hins
        rw [← hs2]
  · intro Row INNER cap s row l s2 lk rest heq hins
    rcases hpg : s.pages[lk.page_id]? with _ | pg
    · rw [DataPager.insert_cons_none INNER cap row heq hpg] at hins
      exact absurd hins (by simp)
    · rw [DataPager.insert_cons_eq INNER cap row heq hpg] at hins
      rcases hsl : pg.save_row_by_link (cap.encode row) lk with e | page2
      · rcases e with _ | ⟨f, r⟩ | _ | _ <;> rw [hsl] at hins <;> simp at hins
        rcases DataPager.retry_insert_spec INNER cap s row with
          ⟨h1, h2⟩ | ⟨pg2, e2, h1, h2, h3⟩ | ⟨pg2, lk3, p3, h1, h2, h3⟩
        · rw [h2] at hins; exact absurd hins (by simp)
        · rw [h3] at hins; simp at hins
        · rw [h3] at hins
          simp only [Option.some_inj, Prod.mk.injEq] at hins
          obtain ⟨-, hs2⟩ := hins
          rw [← hs2]
          exact Or.inr ⟨rfl, rfl⟩
      · rw [hsl] at hins
        simp only [Option.some_inj, Prod.mk.injEq] at hins
        obtain ⟨-, hs2⟩ := hins
        rw [← hs2]
        exact Or.inl ⟨rfl, rfl⟩

/-- Witness for C2 amended: a concrete fresh insert on the new pager takes
`row_count` from 0 to 1. -/
theorem DataPager.row_count_fresh_inserts_only_witness :
    (⟨[⟨0, [1, 2]⟩], [], 1, 0, 0⟩ : PagerState).row_count =
      DataPager.new.row_count + 1 :=
  DataPager.row_count_fresh_inserts_only.2.1 (List Nat) 24 idCap
    DataPager.new [1, 2] ⟨0, 0, 2⟩ ⟨[⟨0, [1, 2]⟩], [], 1, 0, 0⟩ rfl (by decide)

/-- C6 counterexample: pager with one full page (INNER = 2) and a recycled
link of mismatched length.  The popped link fails with `InvalidLink`, the
single retry fails with `PageIsFull`, and `insert` returns that error without
allocating a page — while the genuine fresh-insert path on the same pager
(empty free stack) allocates page 1 and succeeds. -/
theorem DataPager.invalid_link_retry_cex :
    DataPager.insert 2 idCap (⟨[⟨0, [7, 7]⟩], [⟨0, 0, 5⟩], 1, 0, 0⟩ : PagerState) [9] =
      some (.error (.DataPageError (.PageIsFull 0 1)),
            ⟨[⟨0, [7, 7]⟩], [⟨0, 0, 5⟩], 1, 0, 0⟩) ∧
    DataPager.insert 2 idCap (⟨[⟨0, [7, 7]⟩], [], 1, 0, 0⟩ : PagerState) [9] =
      some (.ok ⟨1, 0, 1⟩, ⟨[⟨0, [7, 7]⟩, ⟨1, [9]⟩], [], 2, 1, 1⟩) :=
  ⟨by decide, by decide⟩

/-- C6 amended: when the popped recycled link fails with `InvalidLink`,
`insert` pushes the link back and performs exactly `retry_insert`: one
`save_row` on the current page.  That retry never allocates a page
(`pages.len()` and `last_page_id` are unchanged), and any error from it —
including `PageIsFull` — is propagated with the pager otherwise unchanged. -/
theorem DataPager.invalid_link_single_retry :
    (∀ (Row : Type) (INNER : Nat) (cap : SerCap Row) (s : PagerState)
       (row : Row) (lk : PageLink) (rest : List PageLink) (pg : DataPage),
       s.empty_links = lk :: rest →
       s.pages[lk.page_id]? = some pg →
       pg.save_row_by_link (cap.encode row) lk = .error .InvalidLink →
       DataPager.insert INNER cap s row = DataPager.retry_insert INNER cap s row) ∧
    (∀ (Row : Type) (INNER : Nat) (cap : SerCap Row) (s : PagerState)
       (row : Row) (r : Except ExecutionError PageLink) (s2 : PagerState),
       DataPager.retry_insert INNER cap s row = some (r, s2) →
       s2.pages.length = s.pages.length ∧ s2.last_page_id = s.last_page_id ∧
       (∀ e, r = .error e → s2 = s)) := by
  constructor
  · intro Row INNER cap s row lk rest pg heq hpg hsl
    rw [DataPager.insert_cons_eq INNER cap row heq hpg, hsl]
  · intro Row INNER cap s row r s2 hret
    rcases DataPager.retry_insert_spec INNER cap s row with
      ⟨h1, h2⟩ | ⟨pg2, e2, h1, h2, h3⟩ | ⟨pg2, lk3, p3, h1, h2, h3⟩
    · rw [h2] at hret; exact absurd hret (by simp)
    · rw [h3] at hret
      simp only [Option.some_inj, Prod.mk.injEq] at hret
      obtain ⟨-, hs2⟩ := hret
      rw [← hs2]
      exact ⟨rfl, rfl, fun e _ => rfl⟩
    · rw [h3] at hret
      simp only [Option.some_inj, Prod.mk.injEq] at hret
      obtain ⟨hr, hs2⟩ := hret
      rw [← hs2]
      refine ⟨by simp, rfl, fun e he => ?_⟩
      rw [← hr] at he
      exact absurd he (by simp)

/-- Witness for C6 amended: on the concrete poisoned pager, `insert` equals a
bare `retry_insert`. -/
theorem DataPager.invalid_link_single_retry_witness :
    DataPager.insert 2 idCap (⟨[⟨0, [7, 7]⟩], [⟨0, 0, 5⟩], 1, 0, 0⟩ : PagerState) [9] =
      DataPager.retry_insert 2 idCap (⟨[⟨0, [7, 7]⟩], [⟨0, 0, 5⟩], 1, 0, 0⟩ : PagerState) [9] :=
  DataPager.invalid_link_single_retry.1 (List Nat) 2 idCap
    (⟨[⟨0, [7, 7]⟩], [⟨0, 0, 5⟩], 1, 0, 0⟩ : PagerState) [9] ⟨0, 0, 5⟩ []
    ⟨0, [7, 7]⟩ rfl (by decide) (by decide)

/-- C5: in the fresh path of `insert`, a non-`PageIsFull` error from the first
`save_row` is returned as-is with the pager unchanged; `PageIsFull` makes
`insert` equal to `add_next_page` on the tried page followed by exactly one
`retry_insert`; `add_next_page` pushes exactly one page (ids and counters
advancing by one) when the tried page is still current and does nothing
otherwise; and any error of the single retry is propagated unchanged. -/
theorem DataPager.page_is_full_single_retry :
    (∀ (Row : Type) (INNER : Nat) (cap : SerCap Row) (s : PagerState)
       (row : Row) (pg : DataPage) (e : DataExecutionError),
       s.empty_links = [] →
       s.pages[s.current_page]? = some pg →
       pg.save_row INNER (cap.encode row) = .error e →
       ((∀ f rq, e ≠ .PageIsFull f rq) →
         DataPager.insert INNER cap s row = some (.error (.DataPageError e), s)) ∧
       (∀ f rq, e = .PageIsFull f rq →
         DataPager.insert INNER cap s row =
           DataPager.retry_insert INNER cap
             (DataPager.add_next_page s s.current_page) row)) ∧
    (∀ (s : PagerState) (t : Nat), t = s.current_page →
       (DataPager.add_next_page s t).pages =
         s.pages ++ [DataPage.new (s.last_page_id + 1)] ∧
       (DataPager.add_next_page s t).last_page_id = s.last_page_id + 1 ∧
       (DataPager.add_next_page s t).current_page = s.current_page + 1) ∧
    (∀ (s : PagerState) (t : Nat), t ≠ s.current_page →
       DataPager.add_next_page s t = s) ∧
    (∀ (Row : Type) (INNER : Nat) (cap : SerCap Row) (s : PagerState)
       (row : Row) (pg : DataPage) (e : DataExecutionError),
       s.pages[s.current_page]? = some pg →
       pg.save_row INNER (cap.encode row) = .error e →
       DataPager.retry_insert INNER cap s row =
         some (.error (.DataPageError e), s)) := by
  refine ⟨?_, ?_, ?_, ?_⟩
  · intro Row INNER cap s row pg e heq hpg hsr
    constructor
    · intro hne
      rw [DataPager.insert_nil_eq INNER cap row heq hpg, hsr]
      rcases e with _ | ⟨f, rq⟩ | _ | _
      · simp
      · exact absurd rfl (hne f rq)
      · simp
      · simp
    · intro f rq he
      subst he
      rw [DataPager.insert_nil_eq INNER cap row heq hpg, hsr]
  · intro s t h
    rw [DataPager.add_next_page_eq_pos h]
    exact ⟨rfl, rfl, rfl⟩
  · intro s t h
    exact DataPager.add_next_page_eq_neg h
  · intro Row INNER cap s row pg e hpg hsr
    unfold DataPager.retry_insert
    rw [hpg]
    simp [hsr]

/-- Witness for C5: on a pager whose only page is full (INNER = 2), the first
fresh `save_row` fails with `PageIsFull` and `insert` becomes
`add_next_page` followed by one `retry_insert`. -/
theorem DataPager.page_is_full_single_retry_witness :
    DataPager.insert 2 idCap (⟨[⟨0, [7, 7]⟩], [], 1, 0, 0⟩ : PagerState) [9] =
      DataPager.retry_insert 2 idCap
        (DataPager.add_next_page (⟨[⟨0, [7, 7]⟩], [], 1, 0, 0⟩ : PagerState) 0) [9] :=
  (DataPager.page_is_full_single_retry.1 (List Nat) 2 idCap
    (⟨[⟨0, [7, 7]⟩], [], 1, 0, 0⟩ : PagerState) [9] ⟨0, [7, 7]⟩
    (.PageIsFull 0 1) rfl (by decide) (by decide)).2 0 1 rfl

/-- C9: when every recycled link on `empty_links` has `page_id < pages.len()`,
the unchecked index in the recycled branch of `insert` is in bounds and
`insert` never panics; but after `delete` of a link with `page_id = 5` on a
one-page pager, the next `insert` panics (modelled as `none`), whereas
`select`, `update`, `with_ref` and `with_mut_ref` return `PageNotFound(5)` on
the same link. -/
theorem DataPager.insert_unchecked_recycled_index :
    (∀ (Row : Type) (INNER : Nat) (cap : SerCap Row) (s : PagerState)
      (row : Row), DataPager.Inv s →
      (∀ l ∈ s.empty_links, l.page_id < s.pages.length) →
      DataPager.insert INNER cap s row ≠ none) ∧
    (DataPager.insert 24 idCap (DataPager.delete DataPager.new ⟨5, 0, 1⟩).2 [1] = none ∧
     DataPager.select idCap (DataPager.delete DataPager.new ⟨5, 0, 1⟩).2 ⟨5, 0, 1⟩ =
       .error (.PageNotFound 5) ∧
     (DataPager.update idCap (DataPager.delete DataPager.new ⟨5, 0, 1⟩).2 [1] ⟨5, 0, 1⟩).1 =
       .error (.PageNotFound 5) ∧
     DataPager.with_ref (DataPager.delete DataPager.new ⟨5, 0, 1⟩).2 ⟨5, 0, 1⟩
       (fun b => b.length) = .error (.PageNotFound 5) ∧
     (DataPager.with_mut_ref (DataPager.delete DataPager.new ⟨5, 0, 1⟩).2 ⟨5, 0, 1⟩
       (fun b => (b.length, b))).1 = .error (.PageNotFound 5)) := by
  constructor
  · intro Row INNER cap s row hInv hlinks
    have hcur : s.current_page < s.pages.length := by
      obtain ⟨-, h2, h3⟩ := hInv; omega
    simp only [DataPager.insert]
    split
    case _ link rest heq =>
      have hl : link.page_id < s.pages.length := by
        apply hlinks; rw [heq]; exact List.mem_cons_self _ _
      rw [List.getElem?_eq_getElem hl]
      split
      · simp_all
      · split
        · exact DataPager.retry_insert_ne_none _ _ _ _ hcur
        · simp
        · simp
    case _ heq =>
      rw [List.getElem?_eq_getElem hcur]
      split
      · simp_all
      · split
        · simp
        · split
          · apply DataPager.retry_insert_ne_none
            simp [DataPager.add_next_page]
            omega
          · simp
  · exact ⟨by decide, by decide, by decide, by decide, by decide⟩

/-- Witness for C9: on the fresh one-page pager (whose free stack is empty,
hence trivially in bounds) `insert` does not panic. -/
theorem DataPager.insert_unchecked_recycled_index_witness :
    DataPager.insert 24 idCap DataPager.new [1] ≠ none :=
  DataPager.insert_unchecked_recycled_index.1 (List Nat) 24 idCap
    DataPager.new [1] (by decide) (by simp [DataPager.new])

/-- C3 counterexample: when `File::open` fails with a non-missing-file error
(an unreadable file, modelled as `permissionDenied`), the generated
`load_from_file` still returns the fresh empty table `Ok(0)` instead of
surfacing an error — the let-else on `File::open` converts every open
failure, not only the missing-file one, into "create empty table". -/
theorem load_from_file_unreadable_cex :
    load_from_file 0 (fun _ : Unit => (Except.ok 1 : Except Unit Nat))
      (fun n : Nat => n) (Except.error IoErrorKind.permissionDenied) =
      Except.ok 0 ∧
    load_from_file 0 (fun _ : Unit => (Except.ok 1 : Except Unit Nat))
      (fun n : Nat => n) (Except.error IoErrorKind.permissionDenied) ≠
      Except.error () :=
  ⟨rfl, by decide⟩

/-- C3 amended: `load_from_file` returns a newly created empty table whenever
`File::open` fails — for any error kind, missing file or not — and surfaces
exactly the failures that occur after a successful open: a `parse_file`
error is returned to the caller, and a parsed space becomes the table. -/
theorem load_from_file_routes :
    (∀ (F S T E : Type) (newTable : T) (parse : F → Except E S)
       (intoW : S → T) (err : IoErrorKind),
       load_from_file newTable parse intoW (.error err) = .ok newTable) ∧
    (∀ (F S T E : Type) (newTable : T) (parse : F → Except E S)
       (intoW : S → T) (f : F) (e : E), parse f = .error e →
       load_from_file newTable parse intoW (.ok f) = .error e) ∧
    (∀ (F S T E : Type) (newTable : T) (parse : F → Except E S)
       (intoW : S → T) (f : F) (sp : S), parse f = .ok sp →
       load_from_file newTable parse intoW (.ok f) = .ok (intoW sp)) := by
  refine ⟨fun F S T E nt p iw err => rfl, ?_, ?_⟩
  · intro F S T E nt p iw f e h
    unfold load_from_file
    simp [h]
  · intro F S T E nt p iw f sp h
    unfold load_from_file
    simp [h]

/-- Witness for C3 amended: a concrete corrupt file — open succeeds, parsing
fails with error 7 — is surfaced to the caller. -/
theorem load_from_file_routes_witness :
    load_from_file 0 (fun _ : Unit => (Except.error 7 : Except Nat Nat))
      (fun n : Nat => n) (Except.ok ()) = Except.error 7 :=
  load_from_file_routes.2.1 Unit Nat Nat Nat 0
    (fun _ => Except.error 7) (fun n => n) () 7 rfl

theorem mapPagesToGeneral_length {α : Type} (t : PageType) (p : Nat)
    (xs : List α) : (mapPagesToGeneral t p xs).length = xs.length := by
  induction xs generalizing p with
  | nil => rfl
  | cons x rest ih => simp [mapPagesToGeneral, ih]

/-- C4 counterexample: with one primary-index page, one secondary-index page
and one data page, `into_space` ends with `page_count = 2`
(1 SpaceInfo + 1 primary), not the claimed
1 + |primary| + |secondary| + |data| = 4: the secondary-index and data
appends never update `page_count`. -/
theorem into_space_page_count_cex :
    (into_space "t" 0 [] [()] [("i", [()])] [([9], 1)]).map
      (fun sp => sp.info.inner.page_count) = some 2 ∧ (2 : Nat) ≠ 1 + 1 + 1 + 1 :=
  ⟨by decide, by decide⟩

/-- C4 amended: whenever `into_space` returns a space, its `page_count`
equals 1 (the SpaceInfo page) plus the number of primary-index pages only —
the secondary-index and data appends do not update it — while an Interval
`(first_page_id, last_page_id)` is recorded in the corresponding info field
for the primary-key, secondary-index and data sections. -/
theorem into_space_page_count (κ β : Type) (name : String) (pkg : Nat)
    (el : List PageLink) (pkPages : List κ) (secIdx : List (String × List β))
    (dataPages : List (List Nat × Nat)) (sp : Space κ β)
    (h : into_space name pkg el pkPages secIdx dataPages = some sp) :
    sp.info.inner.page_count = 1 + sp.primary_index.length ∧
    sp.primary_index.length = pkPages.length ∧
    sp.data.length = dataPages.length ∧
    (∀ fP lP, sp.primary_index.head? = some fP →
      sp.primary_index.getLast? = some lP →
      sp.info.inner.primary_key_intervals =
        [⟨fP.header.page_id, lP.header.page_id⟩]) ∧
    (∀ fD lD, sp.data.head? = some fD → sp.data.getLast? = some lD →
      sp.info.inner.data_intervals = [⟨fD.header.page_id, lD.header.page_id⟩]) ∧
    sp.info.inner.secondary_index_intervals = secIntervals sp.indexes := by
  unfold into_space at h
  dsimp only at h
  split at h
  · split at h
    · rename_i xs1 xs2 aP bP hPh hPl ys1 ys2 aD bD hDh hDl
      have hsp := Option.some.inj h
      subst hsp
      refine ⟨rfl, ?_, ?_, ?_, ?_, rfl⟩
      · simp [mapPagesToGeneral_length]
      · simp [mapPagesToGeneral_length]
      · intro fP lP hf hl
        simp only at hf hl
        have h1 : fP = aP := Option.some.inj (hf.symm.trans hPh)
        have h2 : lP = bP := Option.some.inj (hl.symm.trans hPl)
        rw [h1, h2]
      · intro fD lD hf hl
        simp only at hf hl
        have h1 : fD = aD := Option.some.inj (hf.symm.trans hDh)
        have h2 : lD = bD := Option.some.inj (hl.symm.trans hDl)
        rw [h1, h2]
    · exact absurd h (by simp)
  · exact absurd h (by simp)

/-- Witness for C4 amended: the conclusions evaluated on the concrete
one-page-per-section space `spC4`. -/
theorem into_space_page_count_witness :
    spC4.info.inner.page_count = 1 + spC4.primary_index.length ∧
    spC4.primary_index.length = [()].length ∧
    spC4.data.length = [([9], 1)].length ∧
    (∀ fP lP, spC4.primary_index.head? = some fP →
      spC4.primary_index.getLast? = some lP →
      spC4.info.inner.primary_key_intervals =
        [⟨fP.header.page_id, lP.header.page_id⟩]) ∧
    (∀ fD lD, spC4.data.head? = some fD → spC4.data.getLast? = some lD →
      spC4.info.inner.data_intervals =
        [⟨fD.header.page_id, lD.header.page_id⟩]) ∧
    spC4.info.inner.secondary_index_intervals = secIntervals spC4.indexes :=
  into_space_page_count Unit Unit "t" 0 [] [()] [("i", [()])] [([9], 1)]
    spC4 (by decide)

end WorkTable
